import Mathlib

/-!
Verification of the access-control and key-wrapping core of the
Blockchain-EHR backend.

The definitions below are a shallow embedding of:
* `KeyRegistry` (contracts/PatientRecordsFactory.sol, second compilation unit):
  versioned public-key lifecycle per identity;
* `PatientHealthRecords` (the per-patient contract): records, permissions,
  EIP-712 delegated grants with nonce replay protection, emergency access,
  and the `checkAccess` / `getAccessibleRecords` read algorithms;
* the AES-256-GCM wrapper (src/utils/aes-gcm.ts), whose cipher core lives in
  the Node `crypto` library and is therefore modelled from the spec.

Conventions of the embedding:
* Ethereum addresses are `Nat`, with `0` standing for `address(0)`.
* `bytes` / `bytes32` values are `List Nat` / `Nat`.
* Solidity mappings are total functions returning the zero struct by default,
  exactly as the EVM does.
* A reverting function is `Except String α`; `.error` carries the exact
  `require` message from the source.  A revert leaves state unchanged, which
  the step functions realise by keeping the pre-state on `.error`.
* `keccak256` is collision-free in every use site relevant here, so hashes of
  structured data are modelled by the data itself (nonce hashes by the nonce,
  emergency ids by the hashed tuple).
-/

/-- Byte strings (`bytes` in Solidity, `Buffer` in TypeScript). -/
abbrev Bytes := List Nat

namespace KeyRegistry

/-- `KeyRegistry.PublicKey` struct. -/
structure PublicKey where
  publicKey : Bytes
  timestamp : Nat
  version : Nat
  isActive : Bool
  deriving DecidableEq

/-- The EVM zero value of the `PublicKey` struct (value of unset mapping slots). -/
def PublicKey.zero : PublicKey :=
  { publicKey := [], timestamp := 0, version := 0, isActive := false }

/-- Storage of the `KeyRegistry` contract. -/
structure KRState where
  keys : Nat → Nat → PublicKey
  currentVersion : Nat → Nat
  isRegistered : Nat → Bool

/-- State of a freshly deployed `KeyRegistry` (all mappings zero). -/
def KRState.init : KRState :=
  { keys := fun _ _ => PublicKey.zero
  , currentVersion := fun _ => 0
  , isRegistered := fun _ => false }

/-- `KeyRegistry.registerKey`. -/
def registerKey (s : KRState) (sender : Nat) (pk : Bytes) (now : Nat) :
    Except String KRState :=
  if pk.length ≠ 65 then .error "Invalid public key length"
  else if pk[0]? ≠ some 4 then .error "Public key must be uncompressed"
  else if s.isRegistered sender then .error "Key already registered. Use rotateKey instead"
  else .ok
    { s with
      keys := fun a v =>
        if a = sender ∧ v = 0 then
          { publicKey := pk, timestamp := now, version := 0, isActive := true }
        else s.keys a v
    , currentVersion := fun a => if a = sender then 0 else s.currentVersion a
    , isRegistered := fun a => if a = sender then true else s.isRegistered a }

/-- `KeyRegistry.rotateKey`. -/
def rotateKey (s : KRState) (sender : Nat) (pk : Bytes) (now : Nat) :
    Except String KRState :=
  if pk.length ≠ 65 then .error "Invalid public key length"
  else if pk[0]? ≠ some 4 then .error "Public key must be uncompressed"
  else if ¬ s.isRegistered sender then .error "No key registered. Use registerKey first"
  else
    let old := s.currentVersion sender
    .ok
      { s with
        keys := fun a v =>
          if a = sender ∧ v = old then { s.keys sender old with isActive := false }
          else if a = sender ∧ v = old + 1 then
            { publicKey := pk, timestamp := now, version := old + 1, isActive := true }
          else s.keys a v
      , currentVersion := fun a => if a = sender then old + 1 else s.currentVersion a }

/-- `KeyRegistry.revokeKey`. -/
def revokeKey (s : KRState) (sender : Nat) : Except String KRState :=
  if ¬ s.isRegistered sender then .error "No key registered"
  else if ¬ (s.keys sender (s.currentVersion sender)).isActive then .error "Key already revoked"
  else .ok
    { s with
      keys := fun a v =>
        if a = sender ∧ v = s.currentVersion sender then
          { s.keys sender (s.currentVersion sender) with isActive := false }
        else s.keys a v }

/-- `KeyRegistry.hasActiveKey`. -/
def hasActiveKey (s : KRState) (u : Nat) : Bool :=
  if s.isRegistered u then (s.keys u (s.currentVersion u)).isActive else false

/-- `KeyRegistry.getCurrentVersion`. -/
def getCurrentVersion (s : KRState) (u : Nat) : Except String Nat :=
  if ¬ s.isRegistered u then .error "User not registered"
  else .ok (s.currentVersion u)

/-- `KeyRegistry.getPublicKeyByVersion`; returns (publicKey, timestamp, isActive). -/
def getPublicKeyByVersion (s : KRState) (u v : Nat) :
    Except String (Bytes × Nat × Bool) :=
  if ¬ s.isRegistered u then .error "User not registered"
  else if ¬ v ≤ s.currentVersion u then .error "Invalid version"
  else .ok ((s.keys u v).publicKey, (s.keys u v).timestamp, (s.keys u v).isActive)

/-- The externally callable mutations of the `KeyRegistry` contract. -/
inductive KROp where
  | register (sender : Nat) (pk : Bytes) (now : Nat)
  | rotate (sender : Nat) (pk : Bytes) (now : Nat)
  | revoke (sender : Nat)

/-- One transaction against the registry; a revert leaves the state unchanged. -/
def krStep (s : KRState) (op : KROp) : KRState :=
  match op with
  | .register sender pk now =>
      match registerKey s sender pk now with | .ok s' => s' | .error _ => s
  | .rotate sender pk now =>
      match rotateKey s sender pk now with | .ok s' => s' | .error _ => s
  | .revoke sender =>
      match revokeKey s sender with | .ok s' => s' | .error _ => s

/-- A sequence of transactions against the registry. -/
def krExec (s : KRState) (ops : List KROp) : KRState :=
  ops.foldl krStep s

end KeyRegistry

namespace PHR

/-- `PatientHealthRecords.HealthRecord` struct (`exists` renamed `hrExists`). -/
structure HealthRecord where
  recordId : Nat
  storagePointer : String
  contentDigest : Nat
  timestamp : Nat
  lastUpdated : Nat
  hrExists : Bool
  deriving DecidableEq

/-- The EVM zero value of the `HealthRecord` struct. -/
def HealthRecord.zero : HealthRecord :=
  { recordId := 0, storagePointer := "", contentDigest := 0, timestamp := 0
  , lastUpdated := 0, hrExists := false }

/-- `PatientHealthRecords.Permission` struct. -/
structure Permission where
  permissionId : Nat
  grantedTo : Nat
  recordIds : List Nat
  wrappedKey : Bytes
  expirationTime : Nat
  grantedAt : Nat
  isRevoked : Bool
  deriving DecidableEq

/-- The EVM zero value of the `Permission` struct (`grantedTo = 0` marks absence). -/
def Permission.zero : Permission :=
  { permissionId := 0, grantedTo := 0, recordIds := [], wrappedKey := []
  , expirationTime := 0, grantedAt := 0, isRevoked := false }

/-- Emergency ids are `keccak256(physician1, physician2, recordIds, block.timestamp)`;
with keccak collision-free this is the tuple itself. -/
abbrev EmergencyId := Nat × Nat × List Nat × Nat

/-- `PatientHealthRecords.EmergencyAccess` struct. -/
structure EmergencyAccess where
  physician1 : Nat
  physician2 : Nat
  recordIds : List Nat
  justificationCode : Nat
  wrappedKey : Bytes
  expirationTime : Nat
  isActive : Bool
  isConfirmed : Bool
  confirmedAt : Nat
  deriving DecidableEq

/-- The EVM zero value of the `EmergencyAccess` struct (`physician1 = 0` marks absence). -/
def EmergencyAccess.zero : EmergencyAccess :=
  { physician1 := 0, physician2 := 0, recordIds := [], justificationCode := 0
  , wrappedKey := [], expirationTime := 0, isActive := false, isConfirmed := false
  , confirmedAt := 0 }

/-- The argument bundle of `grantPermissionBySig` (message fields plus signature). -/
structure GrantSigInput where
  grantedTo : Nat
  recordIds : List Nat
  wrappedKey : Bytes
  expirationTime : Nat
  nonce : Nat
  signature : Bytes
  deriving DecidableEq

/-- Storage of one `PatientHealthRecords` contract.  The nonce mapping is keyed
by the nonce itself (the contract keys it by `keccak256(nonce)`, injective
under the collision-freeness convention). -/
structure PHRState where
  patient : Nat
  records : Nat → HealthRecord
  permissions : Nat → Permission
  emergency : EmergencyId → EmergencyAccess
  usedNonces : Nat → Bool
  userPermissions : Nat → List Nat
  recordCount : Nat
  permissionCount : Nat

/-- Storage of a freshly constructed contract for `patient` (constructor
requires a non-zero patient address). -/
def PHRState.init (patient : Nat) : PHRState :=
  { patient := patient
  , records := fun _ => HealthRecord.zero
  , permissions := fun _ => Permission.zero
  , emergency := fun _ => EmergencyAccess.zero
  , usedNonces := fun _ => false
  , userPermissions := fun _ => []
  , recordCount := 0
  , permissionCount := 0 }

/-- `PatientHealthRecords.addRecord`. -/
def addRecord (s : PHRState) (sender : Nat) (ptr : String) (digest now : Nat) :
    Except String (Nat × PHRState) :=
  if sender ≠ s.patient then .error "Only patient can perform this action"
  else if ptr.length = 0 then .error "Storage pointer cannot be empty"
  else if digest = 0 then .error "Content digest cannot be empty"
  else
    let rid := s.recordCount
    .ok (rid,
      { s with
        records := fun r =>
          if r = rid then
            { recordId := rid, storagePointer := ptr, contentDigest := digest
            , timestamp := now, lastUpdated := now, hrExists := true }
          else s.records r
      , recordCount := rid + 1 })

/-- `PatientHealthRecords.updateRecord`. -/
def updateRecord (s : PHRState) (sender recordId : Nat) (ptr : String)
    (digest now : Nat) : Except String PHRState :=
  if sender ≠ s.patient then .error "Only patient can perform this action"
  else if ¬ (s.records recordId).hrExists then .error "Record does not exist"
  else if ptr.length = 0 then .error "Storage pointer cannot be empty"
  else if digest = 0 then .error "Content digest cannot be empty"
  else .ok
    { s with
      records := fun r =>
        if r = recordId then
          { s.records recordId with
              storagePointer := ptr, contentDigest := digest, lastUpdated := now }
        else s.records r }

/-- `PatientHealthRecords.grantPermission`.  Takes the `KeyRegistry` state read
through the external `hasActiveKey` call. -/
def grantPermission (kr : KeyRegistry.KRState) (s : PHRState)
    (sender grantedTo : Nat) (recordIds : List Nat) (wrappedKey : Bytes)
    (expirationTime now : Nat) : Except String (Nat × PHRState) :=
  if sender ≠ s.patient then .error "Only patient can perform this action"
  else if grantedTo = 0 then .error "Invalid grantee address"
  else if recordIds.length = 0 then .error "Must grant access to at least one record"
  else if ¬ now < expirationTime then .error "Expiration must be in the future"
  else if wrappedKey.length = 0 then .error "Wrapped key cannot be empty"
  else if ¬ KeyRegistry.hasActiveKey kr grantedTo then
    .error "Grantee must have registered public key"
  else if ¬ recordIds.all (fun r => (s.records r).hrExists) then
    .error "Record does not exist"
  else
    let pid := s.permissionCount
    .ok (pid,
      { s with
        permissions := fun q =>
          if q = pid then
            { permissionId := pid, grantedTo := grantedTo, recordIds := recordIds
            , wrappedKey := wrappedKey, expirationTime := expirationTime
            , grantedAt := now, isRevoked := false }
          else s.permissions q
      , userPermissions := fun u =>
          if u = grantedTo then s.userPermissions u ++ [pid] else s.userPermissions u
      , permissionCount := pid + 1 })

/-- `PatientHealthRecords.grantPermissionBySig`.  ECDSA recovery over the
EIP-712 digest is abstracted by `recover`, a function of the full input
(message fields and signature). -/
def grantPermissionBySig (recover : GrantSigInput → Nat)
    (kr : KeyRegistry.KRState) (s : PHRState) (inp : GrantSigInput) (now : Nat) :
    Except String (Nat × PHRState) :=
  if inp.grantedTo = 0 then .error "Invalid grantee address"
  else if inp.recordIds.length = 0 then .error "Must grant access to at least one record"
  else if ¬ now < inp.expirationTime then .error "Expiration must be in the future"
  else if inp.wrappedKey.length = 0 then .error "Wrapped key cannot be empty"
  else if s.usedNonces inp.nonce then .error "Nonce already used"
  else if ¬ KeyRegistry.hasActiveKey kr inp.grantedTo then
    .error "Grantee must have registered public key"
  else if ¬ inp.recordIds.all (fun r => (s.records r).hrExists) then
    .error "Record does not exist"
  else if recover inp ≠ s.patient then .error "Invalid signature"
  else
    let pid := s.permissionCount
    .ok (pid,
      { s with
        usedNonces := fun n => if n = inp.nonce then true else s.usedNonces n
      , permissions := fun q =>
          if q = pid then
            { permissionId := pid, grantedTo := inp.grantedTo
            , recordIds := inp.recordIds, wrappedKey := inp.wrappedKey
            , expirationTime := inp.expirationTime, grantedAt := now
            , isRevoked := false }
          else s.permissions q
      , userPermissions := fun u =>
          if u = inp.grantedTo then s.userPermissions u ++ [pid]
          else s.userPermissions u
      , permissionCount := pid + 1 })

/-- `PatientHealthRecords.revokePermission`. -/
def revokePermission (s : PHRState) (sender pid : Nat) : Except String PHRState :=
  if sender ≠ s.patient then .error "Only patient can perform this action"
  else if (s.permissions pid).grantedTo = 0 then .error "Permission does not exist"
  else if (s.permissions pid).isRevoked then .error "Permission already revoked"
  else .ok
    { s with
      permissions := fun q =>
        if q = pid then { s.permissions pid with isRevoked := true }
        else s.permissions q }

/-- `PatientHealthRecords.requestEmergencyAccess`. -/
def requestEmergencyAccess (s : PHRState) (sender p1 p2 : Nat)
    (recordIds : List Nat) (jcode : Nat) (wrappedKey : Bytes) (now : Nat) :
    Except String (EmergencyId × PHRState) :=
  if ¬ (p1 ≠ 0 ∧ p2 ≠ 0) then .error "Invalid physician addresses"
  else if p1 = p2 then .error "Physicians must be different"
  else if recordIds.length = 0 then .error "Must request access to at least one record"
  else if ¬ (1 ≤ jcode ∧ jcode ≤ 3) then .error "Invalid justification code"
  else if ¬ (sender = p1 ∨ sender = p2) then .error "Only one of the physicians can request"
  else
    let eid : EmergencyId := (p1, p2, recordIds, now)
    .ok (eid,
      { s with
        emergency := fun e =>
          if e = eid then
            { physician1 := p1, physician2 := p2, recordIds := recordIds
            , justificationCode := jcode, wrappedKey := wrappedKey
            , expirationTime := now + 3600, isActive := false
            , isConfirmed := false, confirmedAt := 0 }
          else s.emergency e })

/-- `PatientHealthRecords.confirmEmergencyAccess`. -/
def confirmEmergencyAccess (s : PHRState) (sender : Nat) (eid : EmergencyId)
    (now : Nat) : Except String PHRState :=
  if (s.emergency eid).physician1 = 0 then .error "Emergency access does not exist"
  else if (s.emergency eid).isConfirmed then .error "Already confirmed"
  else if ¬ now < (s.emergency eid).expirationTime then .error "Emergency access expired"
  else if ¬ (sender = (s.emergency eid).physician1 ∨ sender = (s.emergency eid).physician2) then
    .error "Only designated physicians can confirm"
  else .ok
    { s with
      emergency := fun q =>
        if q = eid then
          { s.emergency eid with isConfirmed := true, isActive := true, confirmedAt := now }
        else s.emergency q }

/-- The guard of the permission scan in `checkAccess`: not revoked, not
expired, and the inner loop finds `recordId` in `recordIds`. -/
def livePermCovering (now recordId : Nat) (perm : Permission) : Bool :=
  !perm.isRevoked && decide (now < perm.expirationTime) && perm.recordIds.contains recordId

/-- The permission loop of `checkAccess`: walk the `userPermissions[_user]`
ids in push (grant) order and return the wrapped key of the first permission
that is live and covers `recordId`. -/
def scanPermissions (perms : Nat → Permission) (now recordId : Nat) :
    List Nat → Option Bytes
  | [] => none
  | pid :: rest =>
    if livePermCovering now recordId (perms pid) then some (perms pid).wrappedKey
    else scanPermissions perms now recordId rest

/-- `PatientHealthRecords.checkAccess` (view).  The empty `bytes` the contract
returns in the owner and no-access cases is modelled as `none`. -/
def checkAccess (s : PHRState) (now user recordId : Nat) :
    Except String (Bool × Option Bytes) :=
  if ¬ (s.records recordId).hrExists then .error "Record does not exist"
  else if user = s.patient then .ok (true, none)
  else
    match scanPermissions s.permissions now recordId (s.userPermissions user) with
    | some wk => .ok (true, some wk)
    | none => .ok (false, none)

/-- `PatientHealthRecords.getAllRecordIds` (view). -/
def getAllRecordIds (s : PHRState) : List Nat :=
  List.range s.recordCount

/-- `PatientHealthRecords.getAccessibleRecords` (view).  The contract copies
record ids of live permissions into a scratch array of length `recordCount`;
writing past its end (when the ids collected across permissions outnumber the
records) is a Solidity out-of-bounds panic, i.e. a revert. -/
def getAccessibleRecords (s : PHRState) (now user : Nat) :
    Except String (List Nat) :=
  if user = s.patient then .ok (getAllRecordIds s)
  else if s.recordCount <
      ((s.userPermissions user).foldl
        (fun acc pid =>
          if !(s.permissions pid).isRevoked && decide (now < (s.permissions pid).expirationTime) then
            acc ++ (s.permissions pid).recordIds
          else acc) []).length then
    .error "Array index out of bounds"
  else .ok
    ((s.userPermissions user).foldl
      (fun acc pid =>
        if !(s.permissions pid).isRevoked && decide (now < (s.permissions pid).expirationTime) then
          acc ++ (s.permissions pid).recordIds
        else acc) [])

/-- The externally callable mutations of a `PatientHealthRecords` contract.
Read-only functions and `logAccess` (which only appends to the audit log) are
omitted: they touch none of the storage read by the claims. -/
inductive PHROp where
  | add (sender : Nat) (ptr : String) (digest now : Nat)
  | update (sender recordId : Nat) (ptr : String) (digest now : Nat)
  | grant (kr : KeyRegistry.KRState) (sender grantedTo : Nat)
      (recordIds : List Nat) (wrappedKey : Bytes) (expirationTime now : Nat)
  | grantBySig (recover : GrantSigInput → Nat) (kr : KeyRegistry.KRState)
      (inp : GrantSigInput) (now : Nat)
  | revoke (sender pid : Nat)
  | reqEmergency (sender p1 p2 : Nat) (recordIds : List Nat) (jcode : Nat)
      (wrappedKey : Bytes) (now : Nat)
  | confEmergency (sender : Nat) (eid : EmergencyId) (now : Nat)

/-- One transaction against the contract; a revert leaves the state unchanged. -/
def phrStep (s : PHRState) (op : PHROp) : PHRState :=
  match op with
  | .add sender ptr digest now =>
      match addRecord s sender ptr digest now with
      | .ok (_, s') => s' | .error _ => s
  | .update sender recordId ptr digest now =>
      match updateRecord s sender recordId ptr digest now with
      | .ok s' => s' | .error _ => s
  | .grant kr sender grantedTo recordIds wrappedKey expirationTime now =>
      match grantPermission kr s sender grantedTo recordIds wrappedKey expirationTime now with
      | .ok (_, s') => s' | .error _ => s
  | .grantBySig recover kr inp now =>
      match grantPermissionBySig recover kr s inp now with
      | .ok (_, s') => s' | .error _ => s
  | .revoke sender pid =>
      match revokePermission s sender pid with
      | .ok s' => s' | .error _ => s
  | .reqEmergency sender p1 p2 recordIds jcode wrappedKey now =>
      match requestEmergencyAccess s sender p1 p2 recordIds jcode wrappedKey now with
      | .ok (_, s') => s' | .error _ => s
  | .confEmergency sender eid now =>
      match confirmEmergencyAccess s sender eid now with
      | .ok s' => s' | .error _ => s

/-- A sequence of transactions against the contract. -/
def phrExec (s : PHRState) (ops : List PHROp) : PHRState :=
  ops.foldl phrStep s

end PHR

namespace AESGCM

/-- Modelled from the spec: the AES-256-GCM core used by
`src/utils/aes-gcm.ts` lives in the Node `crypto` library, not in this
repository.  Spec §4.1 describes it as a 256-bit-key AEAD with a 96-bit nonce:
a counter-mode keystream (here over an abstract block function `E`) XOR-ed
into the payload, plus an authentication tag deterministically computed from
key, nonce, associated data and ciphertext (here over an abstract hash core
`H`).  `keystreamByte E key iv i` is the i-th keystream byte. -/
def keystreamByte (E : Bytes → Nat → Nat) (key iv : Bytes) (i : Nat) : Nat :=
  E (key ++ iv) i % 256

/-- Modelled from the spec: the first `n` keystream bytes for `key` and `iv`. -/
def keystream (E : Bytes → Nat → Nat) (key iv : Bytes) (n : Nat) : Bytes :=
  (List.range n).map (keystreamByte E key iv)

/-- Modelled from the spec: the 16-byte authentication tag, a deterministic
function (over the abstract hash core `H`) of key, nonce, associated data and
ciphertext. -/
def gcmTag (H : Bytes → Nat) (key iv aad ciphertext : Bytes) : Bytes :=
  (List.range 16).map (fun i => H (key ++ iv ++ aad ++ ciphertext ++ [i]) % 256)

/-- `encrypt` of src/utils/aes-gcm.ts with a caller-supplied IV: validates the
32-byte key and 12-byte IV, then produces `{ciphertext, iv, authTag}`.
The cipher core is the spec-modelled GCM above. -/
def encrypt (E : Bytes → Nat → Nat) (H : Bytes → Nat)
    (data key iv aad : Bytes) : Except String (Bytes × Bytes × Bytes) :=
  if key.length ≠ 32 then .error "Key must be 32 bytes"
  else if iv.length ≠ 12 then .error "IV must be 12 bytes"
  else
    let ciphertext := data.zipWith (fun b k => b ^^^ k) (keystream E key iv data.length)
    .ok (ciphertext, iv, gcmTag H key iv aad ciphertext)

/-- `decrypt` of src/utils/aes-gcm.ts: validates key, IV and tag lengths,
verifies the authentication tag (all-or-nothing: tag mismatch yields an error
and no plaintext), then inverts the keystream XOR. -/
def decrypt (E : Bytes → Nat → Nat) (H : Bytes → Nat)
    (ciphertext key iv authTag aad : Bytes) : Except String Bytes :=
  if key.length ≠ 32 then .error "Key must be 32 bytes"
  else if iv.length ≠ 12 then .error "IV must be 12 bytes"
  else if authTag.length ≠ 16 then .error "Auth tag must be 16 bytes"
  else if gcmTag H key iv aad ciphertext ≠ authTag then
    .error "Unsupported state or unable to authenticate data"
  else .ok (ciphertext.zipWith (fun b k => b ^^^ k) (keystream E key iv ciphertext.length))

end AESGCM

section Samples

open KeyRegistry PHR

/-- A well-formed 65-byte uncompressed public key (tag byte 0x04). -/
def pkA : Bytes := 4 :: List.replicate 64 1

/-- A second well-formed 65-byte public key, used for rotations. -/
def pkB : Bytes := 4 :: List.replicate 64 2

/-- Registry state after identity 1 registers `pkA` at time 1. -/
def krReg : KRState :=
  match registerKey KRState.init 1 pkA 1 with
  | .ok s => s
  | .error _ => KRState.init

/-- Registry state after identity 1 registers and then revokes its key. -/
def krRevoked : KRState :=
  match revokeKey krReg 1 with
  | .ok s => s
  | .error _ => krReg

/-- Registry state after identity 1 registers, revokes, then rotates to `pkB`:
the state the terminal-revocation claim says should be unreachable. -/
def krResurrected : KRState :=
  match rotateKey krRevoked 1 pkB 10 with
  | .ok s => s
  | .error _ => krRevoked

/-- Iterated key rotation (fixed new key and time): the harness for the
"registration followed by N successful rotations" scenario. -/
def rotIter (s : KRState) (i : Nat) (pk : Bytes) : Nat → KRState
  | 0 => s
  | n + 1 =>
    match rotateKey (rotIter s i pk n) i pk 0 with
    | .ok s' => s'
    | .error _ => rotIter s i pk n

/-- Registry state after identity 1 registers `pkA` and then rotates twice
(re-registering the same key bytes; the registry does not check novelty). -/
def krRot2 : KRState :=
  rotIter krReg 1 pkA 2

/-- The registry invariant at one identity: an unregistered identity has no
key material; for a registered identity every version slot above the current
one is empty, only the current version can be active, and slots 0..current
carry their own version number. -/
def KRInvAt (s : KRState) (i : Nat) : Prop :=
  ∀ v : Nat,
    (s.isRegistered i = false →
      s.currentVersion i = 0 ∧ s.keys i v = PublicKey.zero)
    ∧ (s.isRegistered i = true →
      (s.currentVersion i < v → s.keys i v = PublicKey.zero)
      ∧ ((s.keys i v).isActive = true → v = s.currentVersion i)
      ∧ (v ≤ s.currentVersion i → (s.keys i v).version = v))

/-- The reachable-state invariant of the key registry, at every identity. -/
def KRInv (s : KRState) : Prop :=
  ∀ i : Nat, KRInvAt s i

/-- Registry state in which identity 2 has an active key (for grant samples). -/
def krWithGrantee : KRState :=
  match registerKey krReg 2 pkA 1 with
  | .ok s => s
  | .error _ => krReg

/-- A small contract state: patient 1 owns record 0, and identity 2 holds one
unrevoked permission (id 0) over record 0 expiring at time 100. -/
def sampleState : PHRState :=
  { patient := 1
  , records := fun r =>
      if r = 0 then
        { recordId := 0, storagePointer := "QmCID", contentDigest := 7
        , timestamp := 1, lastUpdated := 1, hrExists := true }
      else HealthRecord.zero
  , permissions := fun q =>
      if q = 0 then
        { permissionId := 0, grantedTo := 2, recordIds := [0], wrappedKey := [9]
        , expirationTime := 100, grantedAt := 1, isRevoked := false }
      else Permission.zero
  , emergency := fun _ => EmergencyAccess.zero
  , usedNonces := fun _ => false
  , userPermissions := fun u => if u = 2 then [0] else []
  , recordCount := 1
  , permissionCount := 1 }

/-- `sampleState` after the patient revokes permission 0. -/
def sampleRevoked : PHRState :=
  match revokePermission sampleState 1 0 with
  | .ok s => s
  | .error _ => sampleState

/-- `sampleState` after physician 2 requests emergency access naming
physicians 2 and 3 at time 100. -/
def sampleEmergency : PHRState :=
  match requestEmergencyAccess sampleState 2 2 3 [0] 1 [9] 100 with
  | .ok (_, s) => s
  | .error _ => sampleState

/-- `sampleEmergency` after the original requester (physician 2) confirms its
own request at time 200. -/
def sampleSelfConfirmed : PHRState :=
  match confirmEmergencyAccess sampleEmergency 2 (2, 3, [0], 100) 200 with
  | .ok s => s
  | .error _ => sampleEmergency

/-- Contract state with two records and identity 2 holding two live
permissions that both cover record 0 (for the duplicate-listing example). -/
def dupState : PHRState :=
  { patient := 1
  , records := fun r =>
      if r = 0 ∨ r = 1 then
        { recordId := r, storagePointer := "QmCID", contentDigest := 7
        , timestamp := 1, lastUpdated := 1, hrExists := true }
      else HealthRecord.zero
  , permissions := fun q =>
      if q = 0 ∨ q = 1 then
        { permissionId := q, grantedTo := 2, recordIds := [0], wrappedKey := [9]
        , expirationTime := 100, grantedAt := 1, isRevoked := false }
      else Permission.zero
  , emergency := fun _ => EmergencyAccess.zero
  , usedNonces := fun _ => false
  , userPermissions := fun u => if u = 2 then [0, 1] else []
  , recordCount := 2
  , permissionCount := 2 }

/-- A delegated-grant input for `sampleState`: grant identity 2 access to
record 0 until time 100, nonce 5. -/
def sampleSigInput : GrantSigInput :=
  { grantedTo := 2, recordIds := [0], wrappedKey := [9], expirationTime := 100
  , nonce := 5, signature := [1, 2, 3] }

/-- A recovery oracle that accepts every input as signed by patient 1. -/
def recoverAs1 : GrantSigInput → Nat := fun _ => 1

/-- `sampleState` after the delegated grant `sampleSigInput` is executed. -/
def sampleAfterSig : PHRState :=
  match grantPermissionBySig recoverAs1 krWithGrantee sampleState sampleSigInput 10 with
  | .ok (_, s) => s
  | .error _ => sampleState

/-- `sampleEmergency` after the non-requesting physician 3 confirms at time 200. -/
def sampleConfirmed : PHRState :=
  match confirmEmergencyAccess sampleEmergency 3 (2, 3, [0], 100) 200 with
  | .ok s => s
  | .error _ => sampleEmergency

/-- A concrete block function instantiating the abstract GCM core. -/
def gE : Bytes → Nat → Nat := fun _ i => i + 7

/-- A concrete hash core instantiating the abstract GCM tag. -/
def gH : Bytes → Nat := fun l => l.length

/-- A concrete encryption: payload [1, 2, 3] under an all-zero key and IV. -/
def encW : Except String (Bytes × Bytes × Bytes) :=
  AESGCM.encrypt gE gH [1, 2, 3] (List.replicate 32 0) (List.replicate 12 0) [5]

/-- The ciphertext of `encW`. -/
def ctW : Bytes :=
  match encW with
  | .ok (ct, _, _) => ct
  | .error _ => []

/-- The authentication tag of `encW`. -/
def tagW : Bytes :=
  match encW with
  | .ok (_, _, tag) => tag
  | .error _ => []

end Samples

section Lemmas

open KeyRegistry PHR

/-- `checkAccess` reads only the patient address, the record table, the
permission table and the per-user permission index. -/
theorem checkAccess_congr (s t : PHRState) (now user recordId : Nat)
    (hpat : s.patient = t.patient) (hrec : s.records = t.records)
    (hperm : s.permissions = t.permissions)
    (hup : s.userPermissions = t.userPermissions) :
    checkAccess s now user recordId = checkAccess t now user recordId := by
  unfold checkAccess
  rw [hpat, hrec, hperm, hup]

/-- XOR-ing the same keystream twice is the identity (byte lists of matching
length). -/
theorem zipWith_xor_cancel :
    ∀ (data ks : Bytes), data.length ≤ ks.length →
      ((data.zipWith (fun b k => b ^^^ k) ks).zipWith (fun b k => b ^^^ k) ks) = data := by
  intro data
  induction data with
  | nil => intro ks h; rfl
  | cons d ds ih =>
    intro ks h
    cases ks with
    | nil => simp at h
    | cons k ks2 =>
      simp only [List.zipWith]
      rw [ih ks2 (by simpa using h)]
      rw [Nat.xor_cancel_right]

/-- The keystream has exactly the requested length. -/
theorem keystream_length (E : Bytes → Nat → Nat) (key iv : Bytes) (n : Nat) :
    (AESGCM.keystream E key iv n).length = n := by
  simp [AESGCM.keystream]

/-- The GCM tag is always 16 bytes. -/
theorem gcmTag_length (H : Bytes → Nat) (key iv aad ct : Bytes) :
    (AESGCM.gcmTag H key iv aad ct).length = 16 := by
  simp [AESGCM.gcmTag]

/-- The permission loop of `checkAccess` returns the wrapped key of the first
permission (in push order) satisfying the live-and-covering guard. -/
theorem scanPermissions_eq_find (perms : Nat → Permission) (now recordId : Nat) :
    ∀ pids : List Nat,
      scanPermissions perms now recordId pids =
        ((pids.map perms).find? (livePermCovering now recordId)).map
          Permission.wrappedKey := by
  intro pids
  induction pids with
  | nil => rfl
  | cons p rest ih =>
    by_cases h : livePermCovering now recordId (perms p)
    · simp only [scanPermissions, if_pos h, List.map_cons,
        List.find?_cons_of_pos _ h]
      rfl
    · simp only [scanPermissions, if_neg h, List.map_cons,
        List.find?_cons_of_neg _ h, ih]

/-- The copy loop of `getAccessibleRecords` concatenates, in permission-push
order, the record-id lists of all live permissions. -/
theorem foldl_collect (perms : Nat → Permission) (now : Nat) :
    ∀ (pids : List Nat) (acc : List Nat),
      pids.foldl
        (fun acc pid =>
          if !(perms pid).isRevoked && decide (now < (perms pid).expirationTime) then
            acc ++ (perms pid).recordIds
          else acc) acc
      = acc ++ (((pids.map perms).filter
          (fun p => !p.isRevoked && decide (now < p.expirationTime))).map
            Permission.recordIds).flatten := by
  intro pids
  induction pids with
  | nil => intro acc; simp
  | cons p rest ih =>
    intro acc
    by_cases h : (!(perms p).isRevoked && decide (now < (perms p).expirationTime)) = true
    · rw [List.foldl_cons, if_pos h, List.map_cons,
        show List.filter (fun q => !q.isRevoked && decide (now < q.expirationTime))
            (perms p :: List.map perms rest)
          = perms p :: List.filter (fun q => !q.isRevoked && decide (now < q.expirationTime))
            (List.map perms rest) from List.filter_cons_of_pos h,
        List.map_cons, List.flatten_cons, ih, List.append_assoc]
    · rw [List.foldl_cons, if_neg h, List.map_cons,
        show List.filter (fun q => !q.isRevoked && decide (now < q.expirationTime))
            (perms p :: List.map perms rest)
          = List.filter (fun q => !q.isRevoked && decide (now < q.expirationTime))
            (List.map perms rest) from List.filter_cons_of_neg h]
      exact ih acc

/-- A successful `revokePermission` flips exactly one `isRevoked` flag and
touches nothing else. -/
theorem revoke_ok_core (s : PHRState) (sender pid : Nat) (s' : PHRState)
    (h : revokePermission s sender pid = .ok s') :
    s'.patient = s.patient ∧ s'.records = s.records ∧
      s'.userPermissions = s.userPermissions ∧
      (∀ q, s'.permissions q =
        if q = pid then { s.permissions pid with isRevoked := true }
        else s.permissions q) := by
  unfold revokePermission at h
  split_ifs at h
  injection h with h
  subst h
  exact ⟨rfl, rfl, rfl, fun q => rfl⟩

/-- A successful `revokeKey` deactivates the caller's current version and
changes nothing else — in particular the identity stays registered. -/
theorem revokeKey_ok_core (s : KeyRegistry.KRState) (i : Nat)
    (s' : KeyRegistry.KRState) (h : KeyRegistry.revokeKey s i = .ok s') :
    s.isRegistered i = true
    ∧ s'.isRegistered = s.isRegistered
    ∧ s'.currentVersion = s.currentVersion
    ∧ (∀ a v, s'.keys a v =
        if a = i ∧ v = s.currentVersion i then
          { s.keys i (s.currentVersion i) with isActive := false }
        else s.keys a v) := by
  unfold KeyRegistry.revokeKey at h
  split_ifs at h with h1 h2
  injection h with h
  subst h
  exact ⟨h1, rfl, rfl, fun a v => rfl⟩

/-- A successful `registerKey` validates the key format, requires an
unregistered caller, and creates version 0 active for the caller only. -/
theorem registerKey_ok_core (s : KRState) (i : Nat) (pk : Bytes) (t0 : Nat)
    (s1 : KRState) (h : KeyRegistry.registerKey s i pk t0 = .ok s1) :
    pk.length = 65 ∧ pk[0]? = some 4 ∧ ¬ s.isRegistered i = true
    ∧ (∀ a, s1.isRegistered a = if a = i then true else s.isRegistered a)
    ∧ (∀ a, s1.currentVersion a = if a = i then 0 else s.currentVersion a)
    ∧ (∀ a v, s1.keys a v =
        if a = i ∧ v = 0 then
          { publicKey := pk, timestamp := t0, version := 0, isActive := true }
        else s.keys a v) := by
  unfold KeyRegistry.registerKey at h
  split_ifs at h with h1 h2 h3
  injection h with h
  subst h
  exact ⟨not_not.mp h1, not_not.mp h2, h3, fun a => rfl, fun a => rfl, fun a v => rfl⟩

/-- A successful `rotateKey` validates the key format, requires a registered
caller, deactivates the caller's current version and creates the next
version active. -/
theorem rotateKey_ok_core (s : KRState) (i : Nat) (pk : Bytes) (t0 : Nat)
    (s1 : KRState) (h : KeyRegistry.rotateKey s i pk t0 = .ok s1) :
    pk.length = 65 ∧ pk[0]? = some 4 ∧ s.isRegistered i = true
    ∧ s1.isRegistered = s.isRegistered
    ∧ (∀ a, s1.currentVersion a =
        if a = i then s.currentVersion i + 1 else s.currentVersion a)
    ∧ (∀ a v, s1.keys a v =
        if a = i ∧ v = s.currentVersion i then
          { s.keys i (s.currentVersion i) with isActive := false }
        else if a = i ∧ v = s.currentVersion i + 1 then
          { publicKey := pk, timestamp := t0, version := s.currentVersion i + 1
          , isActive := true }
        else s.keys a v) := by
  unfold KeyRegistry.rotateKey at h
  split_ifs at h with h1 h2 h3
  injection h with h
  subst h
  exact ⟨not_not.mp h1, not_not.mp h2, h3, rfl, fun a => rfl, fun a v => rfl⟩

/-- The per-identity registry invariant transfers along pointwise equality of
the fields at that identity. -/
theorem krInvAt_congr (s s1 : KRState) (i : Nat)
    (e1 : s1.isRegistered i = s.isRegistered i)
    (e2 : s1.currentVersion i = s.currentVersion i)
    (e3 : ∀ v, s1.keys i v = s.keys i v)
    (h : KRInvAt s i) : KRInvAt s1 i := by
  intro v
  rw [e1, e2, e3]
  exact h v

/-- The registry invariant holds in the freshly deployed registry. -/
theorem krInv_init : KRInv KRState.init := by
  intro i v
  exact ⟨fun _ => ⟨rfl, rfl⟩, fun h => Bool.noConfusion h⟩

/-- Every registry transaction preserves the invariant. -/
theorem krInv_step (s : KRState) (op : KROp) (hs : KRInv s) :
    KRInv (KeyRegistry.krStep s op) := by
  cases op with
  | register sender pk now =>
    show KRInv (match KeyRegistry.registerKey s sender pk now with
      | .ok s' => s' | .error _ => s)
    cases heq : KeyRegistry.registerKey s sender pk now with
    | error e => exact hs
    | ok s1 =>
      obtain ⟨hlen, hhd, hunreg, hregf, hcurf, hkeysf⟩ :=
        registerKey_ok_core s sender pk now s1 heq
      have hunreg' : s.isRegistered sender = false := by
        simpa using hunreg
      intro i
      by_cases hi : i = sender
      · subst hi
        intro v
        constructor
        · intro hf
          rw [hregf i] at hf
          simp at hf
        · intro _
          refine ⟨?_, ?_, ?_⟩
          · intro hv
            rw [hcurf i] at hv
            simp at hv
            rw [hkeysf i v, if_neg (by simp; omega)]
            exact ((hs i v).1 hunreg').2
          · intro hact
            rw [hcurf i]
            simp
            by_cases hv : v = 0
            · exact hv
            · rw [hkeysf i v, if_neg (by simp [hv])] at hact
              rw [((hs i v).1 hunreg').2] at hact
              exact absurd hact (by simp [KeyRegistry.PublicKey.zero])
          · intro hv
            rw [hcurf i] at hv
            simp at hv
            subst hv
            rw [hkeysf i 0, if_pos ⟨rfl, rfl⟩]
      · refine krInvAt_congr s s1 i ?_ ?_ ?_ (hs i)
        · rw [hregf i, if_neg hi]
        · rw [hcurf i, if_neg hi]
        · intro v
          rw [hkeysf i v, if_neg (by simp [hi])]
  | rotate sender pk now =>
    show KRInv (match KeyRegistry.rotateKey s sender pk now with
      | .ok s' => s' | .error _ => s)
    cases heq : KeyRegistry.rotateKey s sender pk now with
    | error e => exact hs
    | ok s1 =>
      obtain ⟨hlen, hhd, hreg0, hregs, hcurf, hkeysf⟩ :=
        rotateKey_ok_core s sender pk now s1 heq
      intro i
      by_cases hi : i = sender
      · subst hi
        have hcur1 : s1.currentVersion i = s.currentVersion i + 1 := by
          rw [hcurf i]
          simp
        intro v
        constructor
        · intro hf
          rw [hregs, hreg0] at hf
          exact Bool.noConfusion hf
        · intro _
          refine ⟨?_, ?_, ?_⟩
          · intro hv
            rw [hcur1] at hv
            rw [hkeysf i v, if_neg (by simp; omega), if_neg (by simp; omega)]
            exact ((hs i v).2 hreg0).1 (by omega)
          · intro hact
            rw [hcur1]
            by_cases hv1 : v = s.currentVersion i
            · rw [hkeysf i v, if_pos ⟨rfl, hv1⟩] at hact
              simp at hact
            · by_cases hv2 : v = s.currentVersion i + 1
              · exact hv2
              · rw [hkeysf i v, if_neg (by simp [hv1]), if_neg (by simp [hv2])] at hact
                exact absurd (((hs i v).2 hreg0).2.1 hact) hv1
          · intro hv
            rw [hcur1] at hv
            by_cases hv1 : v = s.currentVersion i
            · rw [hkeysf i v, if_pos ⟨rfl, hv1⟩]
              show (s.keys i (s.currentVersion i)).version = v
              rw [((hs i (s.currentVersion i)).2 hreg0).2.2 (Nat.le_refl _), hv1]
            · by_cases hv2 : v = s.currentVersion i + 1
              · rw [hkeysf i v, if_neg (by simp [hv1]), if_pos ⟨rfl, hv2⟩]
                exact hv2.symm
              · rw [hkeysf i v, if_neg (by simp [hv1]), if_neg (by simp [hv2])]
                exact ((hs i v).2 hreg0).2.2 (by omega)
      · refine krInvAt_congr s s1 i ?_ ?_ ?_ (hs i)
        · rw [hregs]
        · rw [hcurf i, if_neg hi]
        · intro v
          rw [hkeysf i v, if_neg (by simp [hi]), if_neg (by simp [hi])]
  | revoke sender =>
    show KRInv (match KeyRegistry.revokeKey s sender with
      | .ok s' => s' | .error _ => s)
    cases heq : KeyRegistry.revokeKey s sender with
    | error e => exact hs
    | ok s1 =>
      obtain ⟨hreg0, hregs, hcurs, hkeysf⟩ := revokeKey_ok_core s sender s1 heq
      intro i
      by_cases hi : i = sender
      · subst hi
        intro v
        constructor
        · intro hf
          rw [hregs, hreg0] at hf
          exact Bool.noConfusion hf
        · intro _
          refine ⟨?_, ?_, ?_⟩
          · intro hv
            rw [hcurs] at hv
            rw [hkeysf i v, if_neg (by simp; omega)]
            exact ((hs i v).2 hreg0).1 hv
          · intro hact
            rw [hcurs]
            by_cases hv1 : v = s.currentVersion i
            · exact hv1
            · rw [hkeysf i v, if_neg (by simp [hv1])] at hact
              exact ((hs i v).2 hreg0).2.1 hact
          · intro hv
            rw [hcurs] at hv
            by_cases hv1 : v = s.currentVersion i
            · rw [hkeysf i v, if_pos ⟨rfl, hv1⟩]
              show (s.keys i (s.currentVersion i)).version = v
              rw [((hs i (s.currentVersion i)).2 hreg0).2.2 (Nat.le_refl _), hv1]
            · rw [hkeysf i v, if_neg (by simp [hv1])]
              exact ((hs i v).2 hreg0).2.2 hv
      · refine krInvAt_congr s s1 i ?_ ?_ ?_ (hs i)
        · rw [hregs]
        · rw [hcurs]
        · intro v
          rw [hkeysf i v, if_neg (by simp [hi])]

/-- The registry invariant holds after any transaction sequence. -/
theorem krInv_exec (ops : List KROp) :
    ∀ s, KRInv s → KRInv (KeyRegistry.krExec s ops) := by
  induction ops with
  | nil => intro s h; exact h
  | cons op rest ih =>
    intro s h
    exact ih (KeyRegistry.krStep s op) (krInv_step s op h)

/-- After N successful rotations starting from a fresh registration, the
current version is N and exactly version N is active among versions 0..N. -/
theorem rotIter_active (s1 : KRState) (i : Nat) (pk : Bytes)
    (hlen : pk.length = 65) (hhd : pk[0]? = some 4)
    (hreg : s1.isRegistered i = true) (hcur : s1.currentVersion i = 0)
    (hact : ∀ v, v ≤ 0 → ((s1.keys i v).isActive = true ↔ v = 0)) :
    ∀ N, (rotIter s1 i pk N).isRegistered i = true
      ∧ (rotIter s1 i pk N).currentVersion i = N
      ∧ (∀ v, v ≤ N → (((rotIter s1 i pk N).keys i v).isActive = true ↔ v = N)) := by
  intro N
  induction N with
  | zero => exact ⟨hreg, hcur, hact⟩
  | succ n ih =>
    obtain ⟨ihreg, ihcur, ihact⟩ := ih
    cases heq : KeyRegistry.rotateKey (rotIter s1 i pk n) i pk 0 with
    | error e =>
      exfalso
      unfold KeyRegistry.rotateKey at heq
      rw [if_neg (not_not_intro hlen), if_neg (not_not_intro hhd),
        if_neg (not_not_intro ihreg)] at heq
      exact Except.noConfusion heq
    | ok s2 =>
      have hstep : rotIter s1 i pk (n + 1) = s2 := by
        show (match KeyRegistry.rotateKey (rotIter s1 i pk n) i pk 0 with
          | .ok s' => s' | .error _ => rotIter s1 i pk n) = s2
        rw [heq]
      obtain ⟨-, -, -, hregs, hcurf, hkeysf⟩ :=
        rotateKey_ok_core (rotIter s1 i pk n) i pk 0 s2 heq
      rw [hstep]
      refine ⟨by rw [hregs]; exact ihreg, by rw [hcurf i]; simp [ihcur], ?_⟩
      intro v hv
      rw [hkeysf i v]
      by_cases hv1 : v = (rotIter s1 i pk n).currentVersion i
      · rw [if_pos ⟨rfl, hv1⟩]
        rw [ihcur] at hv1
        simp
        omega
      · by_cases hv2 : v = (rotIter s1 i pk n).currentVersion i + 1
        · rw [if_neg (by simp [hv1]), if_pos ⟨rfl, hv2⟩]
          rw [ihcur] at hv2
          simp
          omega
        · rw [if_neg (by simp [hv1]), if_neg (by simp [hv2])]
          rw [ihcur] at hv1 hv2
          rw [ihact v (by omega)]
          omega

set_option maxHeartbeats 1000000 in
/-- A successful `grantPermissionBySig` presupposes a fresh nonce and marks
exactly that nonce as used. -/
theorem grantBySig_ok_core (recover : GrantSigInput → Nat)
    (kr : KeyRegistry.KRState) (s : PHRState) (inp : GrantSigInput)
    (now pid : Nat) (s1 : PHRState)
    (h : grantPermissionBySig recover kr s inp now = .ok (pid, s1)) :
    ¬ inp.grantedTo = 0 ∧ ¬ inp.recordIds.length = 0 ∧ now < inp.expirationTime
    ∧ ¬ inp.wrappedKey.length = 0 ∧ ¬ s.usedNonces inp.nonce = true
    ∧ (∀ n, s1.usedNonces n = if n = inp.nonce then true else s.usedNonces n) := by
  unfold grantPermissionBySig at h
  split_ifs at h with h1 h2 h3 h4 h5 h6 h7 h8
  injection h with h
  rw [Prod.mk.injEq] at h
  obtain ⟨hpid, hs⟩ := h
  subst hs
  exact ⟨h1, h2, h3, h4, h5, fun n => rfl⟩

/-- No transaction ever clears a used nonce. -/
theorem phrStep_usedNonces_mono (s : PHRState) (op : PHROp) (n : Nat)
    (h : s.usedNonces n = true) : (phrStep s op).usedNonces n = true := by
  cases op with
  | add sender ptr digest now =>
    show (match addRecord s sender ptr digest now with
      | .ok (_, s') => s' | .error _ => s).usedNonces n = true
    cases heq : addRecord s sender ptr digest now with
    | error e => exact h
    | ok r =>
      obtain ⟨rid, s'⟩ := r
      show s'.usedNonces n = true
      unfold addRecord at heq
      split_ifs at heq
      injection heq with heq
      rw [Prod.mk.injEq] at heq
      obtain ⟨-, hs⟩ := heq
      subst hs
      exact h
  | update sender recordId ptr digest now =>
    show (match updateRecord s sender recordId ptr digest now with
      | .ok s' => s' | .error _ => s).usedNonces n = true
    cases heq : updateRecord s sender recordId ptr digest now with
    | error e => exact h
    | ok s' =>
      show s'.usedNonces n = true
      unfold updateRecord at heq
      split_ifs at heq
      injection heq with heq
      subst heq
      exact h
  | grant kr sender grantedTo recordIds wrappedKey expirationTime now =>
    show (match grantPermission kr s sender grantedTo recordIds wrappedKey expirationTime now with
      | .ok (_, s') => s' | .error _ => s).usedNonces n = true
    cases heq : grantPermission kr s sender grantedTo recordIds wrappedKey expirationTime now with
    | error e => exact h
    | ok r =>
      obtain ⟨pid, s'⟩ := r
      show s'.usedNonces n = true
      unfold grantPermission at heq
      split_ifs at heq
      injection heq with heq
      rw [Prod.mk.injEq] at heq
      obtain ⟨-, hs⟩ := heq
      subst hs
      exact h
  | grantBySig recover kr inp now =>
    show (match grantPermissionBySig recover kr s inp now with
      | .ok (_, s') => s' | .error _ => s).usedNonces n = true
    cases heq : grantPermissionBySig recover kr s inp now with
    | error e => exact h
    | ok r =>
      obtain ⟨pid, s'⟩ := r
      show s'.usedNonces n = true
      obtain ⟨-, -, -, -, -, hn⟩ :=
        grantBySig_ok_core recover kr s inp now pid s' heq
      rw [hn n]
      by_cases he : n = inp.nonce
      · rw [if_pos he]
      · rw [if_neg he]
        exact h
  | revoke sender pid =>
    show (match revokePermission s sender pid with
      | .ok s' => s' | .error _ => s).usedNonces n = true
    cases heq : revokePermission s sender pid with
    | error e => exact h
    | ok s' =>
      show s'.usedNonces n = true
      unfold revokePermission at heq
      split_ifs at heq
      injection heq with heq
      subst heq
      exact h
  | reqEmergency sender p1 p2 recordIds jcode wrappedKey now =>
    show (match requestEmergencyAccess s sender p1 p2 recordIds jcode wrappedKey now with
      | .ok (_, s') => s' | .error _ => s).usedNonces n = true
    cases heq : requestEmergencyAccess s sender p1 p2 recordIds jcode wrappedKey now with
    | error e => exact h
    | ok r =>
      obtain ⟨eid, s'⟩ := r
      show s'.usedNonces n = true
      unfold requestEmergencyAccess at heq
      split_ifs at heq
      injection heq with heq
      rw [Prod.mk.injEq] at heq
      obtain ⟨-, hs⟩ := heq
      subst hs
      exact h
  | confEmergency sender eid now =>
    show (match confirmEmergencyAccess s sender eid now with
      | .ok s' => s' | .error _ => s).usedNonces n = true
    cases heq : confirmEmergencyAccess s sender eid now with
    | error e => exact h
    | ok s' =>
      show s'.usedNonces n = true
      unfold confirmEmergencyAccess at heq
      split_ifs at heq
      injection heq with heq
      subst heq
      exact h

/-- No transaction sequence ever clears a used nonce. -/
theorem phrExec_usedNonces_mono (ops : List PHROp) : ∀ (s : PHRState) (n : Nat),
    s.usedNonces n = true → (phrExec s ops).usedNonces n = true := by
  induction ops with
  | nil => intro s n h; exact h
  | cons op rest ih =>
    intro s n h
    exact ih (phrStep s op) n (phrStep_usedNonces_mono s op n h)

/-- A successful `confirmEmergencyAccess` only rewrites the emergency table. -/
theorem confirm_ok_core (s : PHRState) (sender : Nat) (eid : EmergencyId)
    (now : Nat) (s2 : PHRState)
    (h : confirmEmergencyAccess s sender eid now = .ok s2) :
    s2.patient = s.patient ∧ s2.records = s.records ∧
      s2.permissions = s.permissions ∧ s2.userPermissions = s.userPermissions := by
  unfold confirmEmergencyAccess at h
  split_ifs at h
  injection h with h
  subst h
  exact ⟨rfl, rfl, rfl, rfl⟩

end Lemmas

section ClaimTheorems

/-- Claim C10: `checkAccess` is not total over record ids — for a `recordId`
whose record does not exist the call reverts with the `recordExists`
modifier's "Record does not exist" error instead of returning
`hasAccess = false`, and it does so even when the queried user is the owning
patient. -/
theorem checkAccess_missing_record_reverts (s : PHR.PHRState)
    (now user recordId : Nat)
    (h : (s.records recordId).hrExists = false) :
    PHR.checkAccess s now user recordId = .error "Record does not exist"
    ∧ PHR.checkAccess s now s.patient recordId = .error "Record does not exist" := by
  constructor <;> · unfold PHR.checkAccess; simp [h]

/-- Witness for C10 on a freshly constructed contract with no records, queried
at the patient's own address. -/
theorem checkAccess_missing_record_reverts_witness :
    PHR.checkAccess (PHR.PHRState.init 1) 0 1 5 = .error "Record does not exist"
    ∧ PHR.checkAccess (PHR.PHRState.init 1) 0 (PHR.PHRState.init 1).patient 5 =
        .error "Record does not exist" :=
  checkAccess_missing_record_reverts (PHR.PHRState.init 1) 0 1 5 rfl

/-- Claim C2: the emergency-access table never influences `checkAccess`.
Whenever two contract states agree on the patient address, the record table,
the permission table and the per-user permission index — in particular when
they differ only in the emergency table, one holding a confirmed
`EmergencyAccess` the other not — `checkAccess` answers identically; and a
successful `confirmEmergencyAccess` leaves every `checkAccess` answer
unchanged. -/
theorem checkAccess_independent_of_emergency (s t : PHR.PHRState)
    (now user recordId sender confNow : Nat) (eid : PHR.EmergencyId)
    (hpat : s.patient = t.patient) (hrec : s.records = t.records)
    (hperm : s.permissions = t.permissions)
    (hup : s.userPermissions = t.userPermissions) :
    PHR.checkAccess s now user recordId = PHR.checkAccess t now user recordId
    ∧ ∀ s2, PHR.confirmEmergencyAccess s sender eid confNow = .ok s2 →
        ∀ now2 u r, PHR.checkAccess s2 now2 u r = PHR.checkAccess s now2 u r := by
  refine ⟨checkAccess_congr s t now user recordId hpat hrec hperm hup, ?_⟩
  intro s2 hconf now2 u r
  obtain ⟨h1, h2, h3, h4⟩ := confirm_ok_core s sender eid confNow s2 hconf
  exact checkAccess_congr s2 s now2 u r h1 h2 h3 h4

/-- Witness for C2: `sampleEmergency` differs from `sampleState` only in the
emergency table, and physician 3's confirmation leaves `checkAccess` intact. -/
theorem checkAccess_independent_of_emergency_witness :
    PHR.checkAccess sampleEmergency 10 2 0 = PHR.checkAccess sampleState 10 2 0
    ∧ PHR.checkAccess sampleConfirmed 10 2 0 =
        PHR.checkAccess sampleEmergency 10 2 0 := by
  have h := checkAccess_independent_of_emergency sampleEmergency sampleState
    10 2 0 3 200 (2, 3, [0], 100) rfl rfl rfl rfl
  exact ⟨h.1, h.2 sampleConfirmed rfl 10 2 0⟩

/-- Claim C3 (code bug): the contract's `confirmEmergencyAccess` has no
self-confirmation check.  Physician 2 requests emergency access (naming
physicians 2 and 3) and then successfully confirms its own request — the
call returns `ok` and sets `isConfirmed`, where the claim demands a
`SelfConfirmation` failure.  Only the `NotDesignatedPhysician` half of the
claim holds (last conjunct). -/
theorem confirm_by_requester_succeeds :
    PHR.requestEmergencyAccess sampleState 2 2 3 [0] 1 [9] 100 =
      .ok ((2, 3, [0], 100), sampleEmergency)
    ∧ PHR.confirmEmergencyAccess sampleEmergency 2 (2, 3, [0], 100) 200 =
      .ok sampleSelfConfirmed
    ∧ (sampleSelfConfirmed.emergency (2, 3, [0], 100)).isConfirmed = true
    ∧ PHR.confirmEmergencyAccess sampleEmergency 4 (2, 3, [0], 100) 200 =
      .error "Only designated physicians can confirm" :=
  ⟨rfl, rfl, rfl, rfl⟩

/-- Claim C1: the access decision.  For an existing record: the owning
patient always gets `hasAccess = true` with no wrapped key; any other
identity gets the wrapped key of the first live (not revoked, not expired)
permission covering the record, scanning that identity's permissions in grant
order, and `hasAccess = false` with no key when no live covering permission
exists.  In particular, when a single permission `pid0` is the only one of
the identity's permissions covering the record, access is `false` as soon as
`now ≥ expiresAt`, and `false` in the state produced by revoking `pid0`,
with no further mutation. -/
theorem checkAccess_decision (s : PHR.PHRState) (now user recordId pid0 sender : Nat)
    (hex : (s.records recordId).hrExists = true) :
    (user = s.patient → PHR.checkAccess s now user recordId = .ok (true, none))
    ∧ (user ≠ s.patient →
        PHR.checkAccess s now user recordId =
          match ((s.userPermissions user).map s.permissions).find?
              (PHR.livePermCovering now recordId) with
          | some perm => .ok (true, some perm.wrappedKey)
          | none => .ok (false, none))
    ∧ (user ≠ s.patient →
        (∀ pid ∈ s.userPermissions user,
          (s.permissions pid).recordIds.contains recordId = true → pid = pid0) →
        ((s.permissions pid0).expirationTime ≤ now →
          PHR.checkAccess s now user recordId = .ok (false, none))
        ∧ (∀ s', PHR.revokePermission s sender pid0 = .ok s' →
          PHR.checkAccess s' now user recordId = .ok (false, none))) := by
  refine ⟨?_, ?_, ?_⟩
  · intro h
    unfold PHR.checkAccess
    rw [if_neg (by simp [hex]), if_pos h]
  · intro h
    unfold PHR.checkAccess
    rw [if_neg (by simp [hex]), if_neg h, scanPermissions_eq_find]
    cases hf : ((s.userPermissions user).map s.permissions).find?
        (PHR.livePermCovering now recordId) with
    | none => simp
    | some perm => simp
  · intro hne hcov
    constructor
    · intro hexp
      have hnone : ((s.userPermissions user).map s.permissions).find?
          (PHR.livePermCovering now recordId) = none := by
        apply List.find?_eq_none.mpr
        intro x hx
        obtain ⟨pid, hmem, rfl⟩ := List.mem_map.mp hx
        intro hlive
        simp only [PHR.livePermCovering, Bool.and_eq_true, decide_eq_true_eq] at hlive
        obtain ⟨⟨ha, hb⟩, hc⟩ := hlive
        have hpe := hcov pid hmem hc
        subst hpe
        omega
      unfold PHR.checkAccess
      rw [if_neg (by simp [hex]), if_neg hne, scanPermissions_eq_find, hnone]
      rfl
    · intro s' hrev
      obtain ⟨hp, hr, hu, hq⟩ := revoke_ok_core s sender pid0 s' hrev
      have hex' : (s'.records recordId).hrExists = true := by rw [hr]; exact hex
      have hnone : ((s'.userPermissions user).map s'.permissions).find?
          (PHR.livePermCovering now recordId) = none := by
        rw [hu]
        apply List.find?_eq_none.mpr
        intro x hx
        obtain ⟨pid, hmem, rfl⟩ := List.mem_map.mp hx
        rw [hq pid]
        by_cases hpe : pid = pid0
        · rw [if_pos hpe]
          simp [PHR.livePermCovering]
        · rw [if_neg hpe]
          intro hlive
          simp only [PHR.livePermCovering, Bool.and_eq_true, decide_eq_true_eq] at hlive
          exact hpe (hcov pid hmem hlive.2)
      unfold PHR.checkAccess
      rw [if_neg (by simp [hex']), if_neg (by rw [hp]; exact hne),
        scanPermissions_eq_find, hnone]
      rfl

/-- Witness for C1 on `sampleState`: the patient, the grantee before expiry,
the grantee at the expiration time, and the grantee after revocation. -/
theorem checkAccess_decision_witness :
    PHR.checkAccess sampleState 10 1 0 = .ok (true, none)
    ∧ PHR.checkAccess sampleState 10 2 0 = .ok (true, some [9])
    ∧ PHR.checkAccess sampleState 100 2 0 = .ok (false, none)
    ∧ PHR.checkAccess sampleRevoked 10 2 0 = .ok (false, none) := by
  have h10 := checkAccess_decision sampleState 10 2 0 0 1 rfl
  have h100 := checkAccess_decision sampleState 100 2 0 0 1 rfl
  have hown := checkAccess_decision sampleState 10 1 0 0 1 rfl
  refine ⟨hown.1 rfl, (h10.2.1 (by decide)).trans rfl, ?_, ?_⟩
  · exact (h100.2.2 (by decide) (by decide)).1 (by decide)
  · exact (h10.2.2 (by decide) (by decide)).2 sampleRevoked rfl

/-- Claim C4 (amended): key revocation is not terminal.  After a successful
`revokeKey`, the identity can never `registerKey` again (it stays registered)
and a second `revokeKey` fails; but a single `rotateKey` call with a
well-formed key still succeeds — `rotateKey` only demands registration, not
an active key — and restores `hasActiveKey = true`. -/
theorem key_revocation_not_terminal (s s' : KeyRegistry.KRState) (i : Nat)
    (h : KeyRegistry.revokeKey s i = .ok s') :
    (∀ pk now, ∃ e, KeyRegistry.registerKey s' i pk now = .error e)
    ∧ (∃ e, KeyRegistry.revokeKey s' i = .error e)
    ∧ (∀ pk now, pk.length = 65 → pk[0]? = some 4 →
        (KeyRegistry.rotateKey s' i pk now).isOk = true
        ∧ ∀ s2, KeyRegistry.rotateKey s' i pk now = .ok s2 →
            KeyRegistry.hasActiveKey s2 i = true) := by
  obtain ⟨hreg, hregs, hcv, hkeys⟩ := revokeKey_ok_core s i s' h
  have hreg' : s'.isRegistered i = true := by rw [hregs]; exact hreg
  refine ⟨?_, ?_, ?_⟩
  · intro pk now
    unfold KeyRegistry.registerKey
    by_cases hl : pk.length = 65
    · by_cases hh : pk[0]? = some 4
      · refine ⟨"Key already registered. Use rotateKey instead", ?_⟩
        rw [if_neg (not_not_intro hl), if_neg (not_not_intro hh), if_pos hreg']
      · refine ⟨"Public key must be uncompressed", ?_⟩
        rw [if_neg (not_not_intro hl), if_pos hh]
    · exact ⟨"Invalid public key length", by rw [if_pos hl]⟩
  · refine ⟨"Key already revoked", ?_⟩
    have hact : (s'.keys i (s'.currentVersion i)).isActive = false := by
      rw [hcv, hkeys]
      simp
    unfold KeyRegistry.revokeKey
    rw [if_neg (not_not_intro hreg'), if_pos (by simp [hact])]
  · intro pk now hlen hhd
    constructor
    · unfold KeyRegistry.rotateKey
      rw [if_neg (not_not_intro hlen), if_neg (not_not_intro hhd),
        if_neg (not_not_intro hreg')]
      rfl
    · intro s2 h2
      unfold KeyRegistry.rotateKey at h2
      split_ifs at h2
      injection h2 with h2
      subst h2
      unfold KeyRegistry.hasActiveKey
      simp [hreg']

/-- Counterexample for C4 as stated: after identity 1 registers and then
revokes its key (`hasActiveKey = false`), a single `rotateKey` transaction by
the same identity succeeds and makes `hasActiveKey` true again — a reachable
post-revocation state with an active key, which the claim says cannot exist. -/
theorem key_revocation_not_terminal_cex :
    KeyRegistry.registerKey KeyRegistry.KRState.init 1 pkA 1 = .ok krReg
    ∧ KeyRegistry.revokeKey krReg 1 = .ok krRevoked
    ∧ KeyRegistry.hasActiveKey krRevoked 1 = false
    ∧ KeyRegistry.rotateKey krRevoked 1 pkB 10 = .ok krResurrected
    ∧ KeyRegistry.hasActiveKey krResurrected 1 = true :=
  ⟨rfl, rfl, rfl, rfl, rfl⟩

/-- Witness for C4 (amended) on the concrete register-then-revoke state. -/
theorem key_revocation_not_terminal_witness :
    (KeyRegistry.registerKey krRevoked 1 pkA 5).isOk = false
    ∧ (KeyRegistry.revokeKey krRevoked 1).isOk = false
    ∧ (KeyRegistry.rotateKey krRevoked 1 pkB 10).isOk = true
    ∧ KeyRegistry.hasActiveKey krResurrected 1 = true := by
  obtain ⟨h1, h2, h3⟩ := key_revocation_not_terminal krReg krRevoked 1 rfl
  refine ⟨?_, ?_, ?_, ?_⟩
  · obtain ⟨e, he⟩ := h1 pkA 5
    rw [he]
    rfl
  · obtain ⟨e, he⟩ := h2
    rw [he]
    rfl
  · exact (h3 pkB 10 (by decide) (by decide)).1
  · exact (h3 pkB 10 (by decide) (by decide)).2 krResurrected rfl

/-- Claim C5: key-registry version invariant.  After registration followed by
N successful rotations, `getCurrentVersion` returns exactly N and
`getPublicKeyByVersion` reports isActive = false for versions 0..N-1 and
true for version N; and in every reachable registry state the `KRInv`
invariant holds — version slots above the current one are empty, slots
0..current carry contiguous version numbers starting at 0 — so at most one
version per identity is ever active. -/
theorem keyRegistry_version_invariant (s0 s1 : KeyRegistry.KRState) (i : Nat)
    (pk : Bytes) (t0 N : Nat)
    (hreg : KeyRegistry.registerKey s0 i pk t0 = .ok s1) :
    KeyRegistry.getCurrentVersion (rotIter s1 i pk N) i = .ok N
    ∧ (∀ v, v ≤ N →
        KeyRegistry.getPublicKeyByVersion (rotIter s1 i pk N) i v =
          .ok (((rotIter s1 i pk N).keys i v).publicKey,
               ((rotIter s1 i pk N).keys i v).timestamp, decide (v = N)))
    ∧ (∀ ops, KRInv (KeyRegistry.krExec KeyRegistry.KRState.init ops))
    ∧ (∀ ops a v w,
        ((KeyRegistry.krExec KeyRegistry.KRState.init ops).keys a v).isActive = true →
        ((KeyRegistry.krExec KeyRegistry.KRState.init ops).keys a w).isActive = true →
        v = w) := by
  obtain ⟨hlen, hhd, hunreg, hregf, hcurf, hkeysf⟩ :=
    registerKey_ok_core s0 i pk t0 s1 hreg
  have hreg1 : s1.isRegistered i = true := by
    rw [hregf i]
    simp
  have hcur1 : s1.currentVersion i = 0 := by
    rw [hcurf i]
    simp
  have hact1 : ∀ v, v ≤ 0 → ((s1.keys i v).isActive = true ↔ v = 0) := by
    intro v hv
    have hv0 : v = 0 := Nat.le_zero.mp hv
    subst hv0
    rw [hkeysf i 0, if_pos ⟨rfl, rfl⟩]
    simp
  obtain ⟨hregN, hcurN, hactN⟩ := rotIter_active s1 i pk hlen hhd hreg1 hcur1 hact1 N
  refine ⟨?_, ?_, fun ops => krInv_exec ops _ krInv_init, ?_⟩
  · unfold KeyRegistry.getCurrentVersion
    rw [if_neg (not_not_intro hregN), hcurN]
  · intro v hv
    unfold KeyRegistry.getPublicKeyByVersion
    rw [if_neg (not_not_intro hregN),
      if_neg (not_not_intro (by rw [hcurN]; exact hv))]
    have hb : ((rotIter s1 i pk N).keys i v).isActive = decide (v = N) := by
      by_cases hvN : v = N
      · rw [(hactN v hv).mpr hvN]
        simp [hvN]
      · have hfalse : ¬ ((rotIter s1 i pk N).keys i v).isActive = true :=
          fun ha => hvN ((hactN v hv).mp ha)
        rw [Bool.not_eq_true] at hfalse
        rw [hfalse]
        simp [hvN]
    rw [hb]
  · intro ops a v w hv hw
    have hinv := krInv_exec ops _ krInv_init a
    by_cases hr : (KeyRegistry.krExec KeyRegistry.KRState.init ops).isRegistered a = true
    · rw [((hinv v).2 hr).2.1 hv, ((hinv w).2 hr).2.1 hw]
    · have hf : (KeyRegistry.krExec KeyRegistry.KRState.init ops).isRegistered a = false := by
        simpa using hr
      rw [((hinv v).1 hf).2] at hv
      exact absurd hv (by simp [KeyRegistry.PublicKey.zero])

/-- Witness for C5: identity 1 registers and rotates twice; version 2 is
current and the only active one, and the invariant holds along a concrete
transaction sequence. -/
theorem keyRegistry_version_invariant_witness :
    KeyRegistry.getCurrentVersion krRot2 1 = .ok 2
    ∧ KeyRegistry.getPublicKeyByVersion krRot2 1 0 =
        .ok ((krRot2.keys 1 0).publicKey, (krRot2.keys 1 0).timestamp, false)
    ∧ KeyRegistry.getPublicKeyByVersion krRot2 1 1 =
        .ok ((krRot2.keys 1 1).publicKey, (krRot2.keys 1 1).timestamp, false)
    ∧ KeyRegistry.getPublicKeyByVersion krRot2 1 2 =
        .ok ((krRot2.keys 1 2).publicKey, (krRot2.keys 1 2).timestamp, true)
    ∧ KRInv (KeyRegistry.krExec KeyRegistry.KRState.init
        [.register 1 pkA 1, .rotate 1 pkB 2, .revoke 1]) := by
  obtain ⟨h1, h2, h3, h4⟩ :=
    keyRegistry_version_invariant KeyRegistry.KRState.init krReg 1 pkA 1 2 rfl
  exact ⟨h1, h2 0 (by omega), h2 1 (by omega), h2 2 (by omega),
    h3 [.register 1 pkA 1, .rotate 1 pkB 2, .revoke 1]⟩

/-- Claim C6 (amended): `grantPermission` checks its preconditions
first-failure-wins in the contract's order: (1) caller is the owning patient,
(2) grantee is a non-zero address, (3) recordIds is non-empty,
(4) expiresAt is strictly in the future, (5) wrappedKey is non-empty,
(6) the grantee has an active registered key, (7) every listed recordId
exists; when all pass, exactly one permission with the next sequential id is
appended, and on any failure no permission is created (the transaction
leaves the state unchanged). -/
theorem grantPermission_order (kr : KeyRegistry.KRState) (s : PHR.PHRState)
    (sender grantedTo : Nat) (recordIds : List Nat) (wrappedKey : Bytes)
    (expirationTime now : Nat) :
    (sender ≠ s.patient →
      PHR.grantPermission kr s sender grantedTo recordIds wrappedKey expirationTime now
        = .error "Only patient can perform this action")
    ∧ (sender = s.patient → grantedTo = 0 →
      PHR.grantPermission kr s sender grantedTo recordIds wrappedKey expirationTime now
        = .error "Invalid grantee address")
    ∧ (sender = s.patient → grantedTo ≠ 0 → recordIds = [] →
      PHR.grantPermission kr s sender grantedTo recordIds wrappedKey expirationTime now
        = .error "Must grant access to at least one record")
    ∧ (sender = s.patient → grantedTo ≠ 0 → recordIds ≠ [] → expirationTime ≤ now →
      PHR.grantPermission kr s sender grantedTo recordIds wrappedKey expirationTime now
        = .error "Expiration must be in the future")
    ∧ (sender = s.patient → grantedTo ≠ 0 → recordIds ≠ [] → now < expirationTime →
        wrappedKey = [] →
      PHR.grantPermission kr s sender grantedTo recordIds wrappedKey expirationTime now
        = .error "Wrapped key cannot be empty")
    ∧ (sender = s.patient → grantedTo ≠ 0 → recordIds ≠ [] → now < expirationTime →
        wrappedKey ≠ [] → KeyRegistry.hasActiveKey kr grantedTo = false →
      PHR.grantPermission kr s sender grantedTo recordIds wrappedKey expirationTime now
        = .error "Grantee must have registered public key")
    ∧ (sender = s.patient → grantedTo ≠ 0 → recordIds ≠ [] → now < expirationTime →
        wrappedKey ≠ [] → KeyRegistry.hasActiveKey kr grantedTo = true →
        (∃ r ∈ recordIds, (s.records r).hrExists = false) →
      PHR.grantPermission kr s sender grantedTo recordIds wrappedKey expirationTime now
        = .error "Record does not exist")
    ∧ (sender = s.patient → grantedTo ≠ 0 → recordIds ≠ [] → now < expirationTime →
        wrappedKey ≠ [] → KeyRegistry.hasActiveKey kr grantedTo = true →
        (∀ r ∈ recordIds, (s.records r).hrExists = true) →
      ∃ s1,
        PHR.grantPermission kr s sender grantedTo recordIds wrappedKey expirationTime now
          = .ok (s.permissionCount, s1)
        ∧ s1.permissionCount = s.permissionCount + 1
        ∧ s1.permissions s.permissionCount =
            { permissionId := s.permissionCount, grantedTo := grantedTo
            , recordIds := recordIds, wrappedKey := wrappedKey
            , expirationTime := expirationTime, grantedAt := now, isRevoked := false }
        ∧ (∀ q, q ≠ s.permissionCount → s1.permissions q = s.permissions q)
        ∧ s1.userPermissions grantedTo = s.userPermissions grantedTo ++ [s.permissionCount]
        ∧ (∀ u, u ≠ grantedTo → s1.userPermissions u = s.userPermissions u)
        ∧ s1.records = s.records ∧ s1.patient = s.patient ∧ s1.usedNonces = s.usedNonces)
    ∧ (∀ e, PHR.grantPermission kr s sender grantedTo recordIds wrappedKey expirationTime now
          = .error e →
        PHR.phrStep s (.grant kr sender grantedTo recordIds wrappedKey expirationTime now) = s) := by
  refine ⟨?_, ?_, ?_, ?_, ?_, ?_, ?_, ?_, ?_⟩
  · intro h1
    unfold PHR.grantPermission
    rw [if_pos h1]
  · intro h1 h2
    unfold PHR.grantPermission
    rw [if_neg (by simp [h1]), if_pos h2]
  · intro h1 h2 h3
    unfold PHR.grantPermission
    rw [if_neg (by simp [h1]), if_neg h2, if_pos (by simp [h3])]
  · intro h1 h2 h3 h4
    unfold PHR.grantPermission
    rw [if_neg (by simp [h1]), if_neg h2,
      if_neg (by rw [List.length_eq_zero]; exact h3), if_pos (by omega)]
  · intro h1 h2 h3 h4 h5
    unfold PHR.grantPermission
    rw [if_neg (by simp [h1]), if_neg h2,
      if_neg (by rw [List.length_eq_zero]; exact h3), if_neg (not_not_intro h4),
      if_pos (by simp [h5])]
  · intro h1 h2 h3 h4 h5 h6
    unfold PHR.grantPermission
    rw [if_neg (by simp [h1]), if_neg h2,
      if_neg (by rw [List.length_eq_zero]; exact h3), if_neg (not_not_intro h4),
      if_neg (by rw [List.length_eq_zero]; exact h5), if_pos (by simp [h6])]
  · intro h1 h2 h3 h4 h5 h6 h7
    unfold PHR.grantPermission
    have hall : ¬ recordIds.all (fun r => (s.records r).hrExists) = true := by
      rw [List.all_eq_true]
      intro hforall
      obtain ⟨r, hr, hf⟩ := h7
      have := hforall r hr
      simp [hf] at this
    rw [if_neg (by simp [h1]), if_neg h2,
      if_neg (by rw [List.length_eq_zero]; exact h3), if_neg (not_not_intro h4),
      if_neg (by rw [List.length_eq_zero]; exact h5), if_neg (by simp [h6]),
      if_pos hall]
  · intro h1 h2 h3 h4 h5 h6 h7
    have hall : recordIds.all (fun r => (s.records r).hrExists) = true :=
      List.all_eq_true.mpr (by intro r hr; simp [h7 r hr])
    unfold PHR.grantPermission
    rw [if_neg (by simp [h1]), if_neg h2,
      if_neg (by rw [List.length_eq_zero]; exact h3), if_neg (not_not_intro h4),
      if_neg (by rw [List.length_eq_zero]; exact h5), if_neg (by simp [h6]),
      if_neg (by simp [hall])]
    refine ⟨_, rfl, rfl, by simp, ?_, by simp, ?_, rfl, rfl, rfl⟩
    · intro q hq
      simp [hq]
    · intro u hu
      simp [hu]
  · intro e he
    show (match PHR.grantPermission kr s sender grantedTo recordIds wrappedKey
        expirationTime now with
      | Except.ok (_, s') => s'
      | Except.error _ => s) = s
    rw [he]

/-- Counterexample for C6 as stated: when the grantee has no registered key,
a listed record does not exist AND the expiration is in the past, the
contract reports "Expiration must be in the future" — not the
record-existence or `RecipientHasNoKey` failure that the claim's order
(records before key before expiration) demands. -/
theorem grantPermission_order_cex :
    KeyRegistry.hasActiveKey KeyRegistry.KRState.init 2 = false
    ∧ (sampleState.records 5).hrExists = false
    ∧ PHR.grantPermission KeyRegistry.KRState.init sampleState 1 2 [5] [9] 0 10
        = .error "Expiration must be in the future" :=
  ⟨rfl, rfl, rfl⟩

/-- Witness for C6 (amended): a failing call reports the patient check first,
a past expiration is reported before the missing key, and a fully valid call
succeeds. -/
theorem grantPermission_order_witness :
    PHR.grantPermission krWithGrantee sampleState 2 2 [0] [7] 50 10
      = .error "Only patient can perform this action"
    ∧ PHR.grantPermission KeyRegistry.KRState.init sampleState 1 2 [5] [9] 0 10
      = .error "Expiration must be in the future"
    ∧ (PHR.grantPermission krWithGrantee sampleState 1 2 [0] [7] 50 10).isOk = true := by
  refine ⟨?_, ?_, ?_⟩
  · exact (grantPermission_order krWithGrantee sampleState 2 2 [0] [7] 50 10).1 (by decide)
  · exact (grantPermission_order KeyRegistry.KRState.init sampleState 1 2 [5] [9] 0 10).2.2.2.1
      rfl (by decide) (by decide) (by decide)
  · obtain ⟨s1, hs1, _⟩ :=
      (grantPermission_order krWithGrantee sampleState 1 2 [0] [7] 50 10).2.2.2.2.2.2.2.1
        rfl (by decide) (by decide) (by decide) (by decide) rfl
        (by intro r hr; simp at hr; subst hr; rfl)
    rw [hs1]
    rfl

/-- Claim C9: symmetric-cipher round trip.  For every payload, 32-byte key,
12-byte IV and associated data, encryption succeeds, and decrypting the
produced `{ciphertext, iv, authTag}` with the same key, IV, tag and
associated data returns exactly the payload — for every instantiation of the
abstract block function `E` and tag core `H`. -/
theorem aesGcm_roundtrip (E : Bytes → Nat → Nat) (H : Bytes → Nat)
    (data key iv aad : Bytes) (hk : key.length = 32) (hiv : iv.length = 12) :
    (∃ ct tag, AESGCM.encrypt E H data key iv aad = .ok (ct, iv, tag))
    ∧ ∀ ct iv2 tag, AESGCM.encrypt E H data key iv aad = .ok (ct, iv2, tag) →
        AESGCM.decrypt E H ct key iv2 tag aad = .ok data := by
  constructor
  · refine ⟨data.zipWith (fun b k => b ^^^ k) (AESGCM.keystream E key iv data.length),
      AESGCM.gcmTag H key iv aad
        (data.zipWith (fun b k => b ^^^ k) (AESGCM.keystream E key iv data.length)), ?_⟩
    unfold AESGCM.encrypt
    rw [if_neg (by simp [hk]), if_neg (by simp [hiv])]
  · intro ct iv2 tag henc
    unfold AESGCM.encrypt at henc
    rw [if_neg (by simp [hk]), if_neg (by simp [hiv])] at henc
    injection henc with henc
    have h1 : ct = data.zipWith (fun b k => b ^^^ k)
        (AESGCM.keystream E key iv data.length) :=
      (congrArg (fun p => p.1) henc).symm
    have h2 : iv2 = iv := (congrArg (fun p => p.2.1) henc).symm
    have h3 : tag = AESGCM.gcmTag H key iv aad (data.zipWith (fun b k => b ^^^ k)
        (AESGCM.keystream E key iv data.length)) :=
      (congrArg (fun p => p.2.2) henc).symm
    rw [← h1] at h3
    have hctlen : ct.length = data.length := by
      rw [h1]
      simp [keystream_length]
    subst h2
    unfold AESGCM.decrypt
    rw [if_neg (by simp [hk]), if_neg (by simp [hiv]),
      if_neg (by simp [h3, gcmTag_length]), if_neg (by simp [h3])]
    rw [hctlen, h1]
    rw [zipWith_xor_cancel data _ (by rw [keystream_length])]

/-- Witness for C9 at a concrete payload, key, IV, associated data and GCM
core instantiation. -/
theorem aesGcm_roundtrip_witness :
    AESGCM.decrypt gE gH ctW (List.replicate 32 0) (List.replicate 12 0) tagW [5] =
      .ok [1, 2, 3] :=
  (aesGcm_roundtrip gE gH [1, 2, 3] (List.replicate 32 0) (List.replicate 12 0) [5]
    rfl rfl).2 ctW (List.replicate 12 0) tagW rfl

/-- Claim C7: nonce replay rejection.  After a delegated-signature grant
consuming nonce n succeeds, resubmitting the identical message and signature
fails with the "Nonce already used" replay error; and no later
`grantPermissionBySig` transaction on that patient's contract using nonce n —
whatever its other fields, signature, registry state or submission time, and
after any sequence of intervening transactions — can ever succeed. -/
theorem grantBySig_nonce_replay (recover : PHR.GrantSigInput → Nat)
    (kr : KeyRegistry.KRState) (s : PHR.PHRState) (inp : PHR.GrantSigInput)
    (now pid : Nat) (s1 : PHR.PHRState)
    (h : PHR.grantPermissionBySig recover kr s inp now = .ok (pid, s1)) :
    PHR.grantPermissionBySig recover kr s1 inp now = .error "Nonce already used"
    ∧ ∀ (ops : List PHR.PHROp) (recover2 : PHR.GrantSigInput → Nat)
        (kr2 : KeyRegistry.KRState) (inp2 : PHR.GrantSigInput) (now2 pid2 : Nat)
        (s2 : PHR.PHRState), inp2.nonce = inp.nonce →
        PHR.grantPermissionBySig recover2 kr2 (PHR.phrExec s1 ops) inp2 now2
          ≠ .ok (pid2, s2) := by
  obtain ⟨h1, h2, h3, h4, h5, hn⟩ :=
    grantBySig_ok_core recover kr s inp now pid s1 h
  have hs1 : s1.usedNonces inp.nonce = true := by
    rw [hn]
    simp
  constructor
  · unfold PHR.grantPermissionBySig
    rw [if_neg h1, if_neg h2, if_neg (not_not_intro h3), if_neg h4, if_pos hs1]
  · intro ops recover2 kr2 inp2 now2 pid2 s2 hne hok
    have hused : (PHR.phrExec s1 ops).usedNonces inp2.nonce = true := by
      rw [hne]
      exact phrExec_usedNonces_mono ops s1 inp.nonce hs1
    unfold PHR.grantPermissionBySig at hok
    split_ifs at hok

/-- Witness for C7 on `sampleState`: the delegated grant `sampleSigInput`
(nonce 5) succeeds once, fails on identical resubmission, and cannot succeed
in any later state. -/
theorem grantBySig_nonce_replay_witness :
    PHR.grantPermissionBySig recoverAs1 krWithGrantee sampleAfterSig sampleSigInput 10
      = .error "Nonce already used"
    ∧ PHR.grantPermissionBySig recoverAs1 krWithGrantee (PHR.phrExec sampleAfterSig [])
        sampleSigInput 99 ≠ .ok (2, sampleAfterSig) := by
  have h := grantBySig_nonce_replay recoverAs1 krWithGrantee sampleState sampleSigInput
    10 1 sampleAfterSig rfl
  exact ⟨h.1, h.2 [] recoverAs1 krWithGrantee sampleSigInput 99 2 sampleAfterSig rfl⟩

/-- Claim C8 (amended): for the owning patient, `getAccessibleRecords`
returns all of the patient's record ids.  For anyone else it returns the
concatenation, in grant order, of the `recordIds` lists of all of that
identity's live (not revoked, not expired) permissions — duplicates are NOT
collapsed (the contract performs no set-union), and when the ids collected
across permissions outnumber `recordCount` the scratch-array copy reverts
with an out-of-bounds panic. -/
theorem getAccessibleRecords_spec (s : PHR.PHRState) (now user : Nat) :
    (user = s.patient →
      PHR.getAccessibleRecords s now user = .ok (List.range s.recordCount))
    ∧ (user ≠ s.patient →
      PHR.getAccessibleRecords s now user =
        if s.recordCount <
            ((((s.userPermissions user).map s.permissions).filter
                (fun p => !p.isRevoked && decide (now < p.expirationTime))).map
              PHR.Permission.recordIds).flatten.length then
          .error "Array index out of bounds"
        else .ok ((((s.userPermissions user).map s.permissions).filter
            (fun p => !p.isRevoked && decide (now < p.expirationTime))).map
              PHR.Permission.recordIds).flatten) := by
  constructor
  · intro h
    unfold PHR.getAccessibleRecords
    rw [if_pos h]
    rfl
  · intro h
    unfold PHR.getAccessibleRecords
    rw [if_neg h, foldl_collect s.permissions now (s.userPermissions user) []]
    simp only [List.nil_append]

/-- Counterexample for C8 as stated: identity 2 holds two distinct live
permissions, both covering record 0; `getAccessibleRecords` returns
`[0, 0]` — record 0 appears twice, not "exactly once" as the claimed
set-union semantics demands. -/
theorem getAccessibleRecords_dup_cex :
    PHR.livePermCovering 10 0 (dupState.permissions 0) = true
    ∧ PHR.livePermCovering 10 0 (dupState.permissions 1) = true
    ∧ dupState.permissions 0 ≠ dupState.permissions 1
    ∧ PHR.getAccessibleRecords dupState 10 2 = .ok [0, 0]
    ∧ List.count 0 [0, 0] = 2 :=
  ⟨rfl, rfl, by decide, rfl, rfl⟩

/-- Witness for C8 (amended) on `dupState`: the patient sees both records,
identity 2 sees the duplicated concatenation. -/
theorem getAccessibleRecords_spec_witness :
    PHR.getAccessibleRecords dupState 10 1 = .ok [0, 1]
    ∧ PHR.getAccessibleRecords dupState 10 2 = .ok [0, 0] := by
  have h := getAccessibleRecords_spec dupState 10 1
  have h2 := getAccessibleRecords_spec dupState 10 2
  exact ⟨(h.1 rfl).trans rfl, (h2.2 (by decide)).trans rfl⟩

end ClaimTheorems
